import Mathlib

/-!
# Consul post-processor: a shallow embedding

Source: `post-processor/consul/post-processor.go`.

Go strings are modelled by `String`.  The only separators the program splits
on are the one-byte characters `,` and `:`, so splitting a string by bytes and
by characters agree.  A Go `error` is modelled by its shape and message text,
`nil` by `none`.  A Go `map[string]string` is an association list with distinct
keys, a `nil` map is `none`.  A Go run-time panic is the `Except.error` branch of
the functions that can panic.
-/

namespace consul

/-! ## Library functions the program calls -/

/-- Pieces of a character list between the occurrences of `sep`
(`strings.Split` with a one-character separator, on the characters). -/
def splitChars (sep : Char) : List Char → List (List Char)
  | [] => [[]]
  | c :: cs =>
    if c = sep then [] :: splitChars sep cs
    else
      match splitChars sep cs with
      | [] => [[c]]
      | piece :: pieces => (c :: piece) :: pieces

/-- Go `strings.Split(s, sep)` for a separator of one character: the substrings
of `s` between the occurrences of `sep`; never empty, `Split "" sep = [""]`. -/
def Split (s : String) (sep : Char) : List String :=
  (splitChars sep s.data).map String.mk

/-- Go `strings.Join(elems, sep)`. -/
def Join : List String → String → String
  | [], _ => ""
  | [a], _ => a
  | a :: b :: rest, sep => a ++ sep ++ Join (b :: rest) sep

/-! ## Data model -/

/-- A Go `map[string]string` that is not `nil`. -/
abbrev StringMap := AList (fun _ : String => String)

/-- The shapes of value an artifact can hand out through `State`
(a Go `interface{}` that is not `nil`). -/
inductive Value where
  | string (s : String)
  | stringMap (m : StringMap)
  | int (n : Int)
  | bool (b : Bool)

/-- A Go `error` that is not `nil`: one made by `fmt.Errorf` (or returned by a
library), or a `packer.MultiError` holding a list of error messages. -/
inductive Error where
  | msg (text : String)
  | multi (errors : List String)
  deriving DecidableEq

/-- The `packer.Artifact` interface, as far as the program uses it. -/
structure Artifact where
  BuilderId : String
  Id : String
  State : String → Option Value

/-- The `packer.Ui` output sink: the messages it received, oldest first. -/
structure Ui where
  messages : List String
  deriving DecidableEq

/-- `ui.Message(s)`. -/
def Ui.Message (ui : Ui) (s : String) : Ui :=
  { messages := ui.messages ++ [s] }

/-- A record written to the store (`api.KVPair`). -/
structure KVPair where
  Key : String
  Value : Option StringMap

/-- The key-value store as the program sees it: the records put so far,
oldest first. -/
abbrev Store := List KVPair

/-- Connection settings of the store client (`api.Config`). -/
structure ApiConfig where
  Address : String
  Scheme : String
  Datacenter : String
  Token : String
  HttpClient : Nat
  HttpAuth : Option (String × String)
  WaitTime : Nat
  deriving DecidableEq

/-- A store client (`*api.Client`): the settings it was made from. -/
structure Client where
  config : ApiConfig
  deriving DecidableEq

def builtins : List (String × String) :=
  [("mitchellh.amazonebs", "amazonebs"),
   ("mitchellh.amazon.instance", "amazoninstance")]

def ArtifactStateType : String := "consul.artifact.type"

def ArtifactStateMetadata : String := "consul.artifact.metadata"

structure Config where
  PackerUserVars : StringMap
  Artifact : String
  Type_ : String
  TypeOverride : Bool
  Metadata : Option StringMap
  Address : String
  Scheme : String
  Datacenter : String
  Token : String

structure PostProcessor where
  config : Config
  client : Option Client

/-! ## PostProcess -/

/-- What a call of `PostProcess` returns and leaves behind: the three returned
values, the output sink and the store after the call. -/
structure PostProcessResult where
  artifact : Option Artifact
  keep : Bool
  err : Option Error
  ui : Ui
  store : Store

/-- The loop of `PostProcess` over the units of the identifier: `none` when the
loop ran to its end, `some err` when it returned early, with the sink as the
loop left it. -/
def PostProcess.loop (artifact : Artifact) : List String → Ui → Option Error × Ui
  | [], ui => (none, ui)
  | regions :: rest, ui =>
    let parts := Split regions ':'
    if parts.length ≠ 2 then
      (some (Error.msg ("Poorly formatted artifact ID: " ++ artifact.Id)), ui)
    else
      let ui := ui.Message ("AMI ID part 0: " ++ parts.getD 0 "")
      let ui := ui.Message ("AMI ID part 1: " ++ parts.getD 1 "")
      PostProcess.loop artifact rest ui

/-- `PostProcessor.PostProcess`.  The store is threaded through unchanged: the
source has no live call that writes to it. -/
def PostProcessor.PostProcess (_p : PostProcessor) (ui : Ui) (store : Store)
    (artifact : Artifact) : PostProcessResult :=
  match builtins.lookup artifact.BuilderId with
  | none =>
    { artifact := none, keep := false,
      err := some (Error.msg ("Unsupported artifact type: " ++ artifact.BuilderId)),
      ui := ui, store := store }
  | some _ =>
    match PostProcess.loop artifact (Split artifact.Id ',') ui with
    | (some err, ui) =>
      { artifact := none, keep := false, err := some err, ui := ui, store := store }
    | (none, ui) =>
      let Id := artifact.Id
      let ui := ui.Message ("AMI IDs: " ++ Id)
      { artifact := some artifact, keep := false, err := none, ui := ui, store := store }

/-! ## The identifier parser as the specification words it -/

/-- The progress messages for a sequence of (region, value) units. -/
def unitMessages (pairs : List (String × String)) : List String :=
  pairs.flatMap (fun pr => ["AMI ID part 0: " ++ pr.1, "AMI ID part 1: " ++ pr.2])

/-- Specification of the identifier parser, over the units still to parse:
each unit splits on `:` into exactly two parts, or the whole parse fails with
the full identifier. -/
def parseUnits (identifier : String) : List String → Except Error (List (String × String))
  | [] => .ok []
  | unit :: rest =>
    match Split unit ':' with
    | [region, value] =>
      match parseUnits identifier rest with
      | .ok pairs => .ok ((region, value) :: pairs)
      | .error e => .error e
    | _ => .error (Error.msg ("Poorly formatted artifact ID: " ++ identifier))

/-- Specification of the identifier parser: `parse(identifier)`, splitting the
input on `,` into units and each unit on `:`. -/
def parse (identifier : String) : Except Error (List (String × String)) :=
  parseUnits identifier (Split identifier ',')

/-- The (region, value) pair the loop reads off a unit: `parts[0]`, `parts[1]`. -/
def unitPair (unit : String) : String × String :=
  ((Split unit ':').getD 0 "", (Split unit ':').getD 1 "")

/-! ## metadata and artifactType -/

/-- The Go kind of a value, as it appears in error texts. -/
def Value.kind : Value → String
  | .string _ => "string"
  | .stringMap _ => "map"
  | .int _ => "int"
  | .bool _ => "bool"

/-- Library function `mapstructure.Decode(raw, &metadata)` with a target of type
`map[string]string`: a mapping of strings decodes into a fresh map with the same
entries; a value of any other kind is an error (the program panics on it). -/
def Decode : Value → Except Error StringMap
  | .stringMap m => .ok m
  | v => .error (Error.msg ("expected a map, got " ++ v.kind))

/-- `PostProcessor.metadata`; `Except.error` is the panic.  The `range` over
the configured map visits its entries in list order. -/
def PostProcessor.metadata (p : PostProcessor) (artifact : Artifact) :
    Except Error (Option StringMap) :=
  let decoded : Except Error (Option StringMap) :=
    match artifact.State ArtifactStateMetadata with
    | some metadataRaw =>
      match Decode metadataRaw with
      | .error err => .error err
      | .ok m => .ok (some m)
    | none => .ok none
  match decoded with
  | .error err => .error err
  | .ok metadata =>
    match p.config.Metadata with
    | some configured =>
      match metadata with
      | none => .ok (some configured)
      | some m => .ok (some (configured.entries.foldl (fun acc kv => acc.insert kv.1 kv.2) m))
    | none => .ok metadata

/-- `PostProcessor.artifactType`; `Except.error` is the panic of the type
assertion `v.(string)` on a value that is not a string. -/
def PostProcessor.artifactType (p : PostProcessor) (artifact : Artifact) :
    Except Error String :=
  if !p.config.TypeOverride then
    match artifact.State ArtifactStateType with
    | some (.string s) => .ok s
    | some v =>
      .error (Error.msg ("interface conversion: interface is " ++ v.kind ++ ", not string"))
    | none => .ok p.config.Type_
  else .ok p.config.Type_

/-! ## Configure -/

/-- The keys of the `templates` map of `Configure`; each stands for a pointer to
the field of the same name. -/
inductive TemplateKey where
  | address
  | scheme
  | datacenter
  | token
  deriving DecidableEq

/-- The key as a string. -/
def TemplateKey.name : TemplateKey → String
  | .address => "address"
  | .scheme => "scheme"
  | .datacenter => "datacenter"
  | .token => "token"

/-- Reading through the pointer of a key: `*ptr`. -/
def Config.get (c : Config) : TemplateKey → String
  | .address => c.Address
  | .scheme => c.Scheme
  | .datacenter => c.Datacenter
  | .token => c.Token

/-- Writing through the pointer of a key: `*ptr = v`. -/
def Config.set (c : Config) (k : TemplateKey) (v : String) : Config :=
  match k with
  | .address => { c with Address := v }
  | .scheme => { c with Scheme := v }
  | .datacenter => { c with Datacenter := v }
  | .token => { c with Token := v }

/-- What `Configure` calls outside this file, taken as given: the decoder of the
raw configuration (it fills the configuration in place and may fail), the
constructor of the template engine, template expansion with a set of user
variables (it returns a string and possibly an error), the store's default
settings, the constructor of the store client, and the order in which `range`
visits the four keys of the `templates` map (Go leaves it open). -/
structure Env (Raw : Type) where
  DecodeConfig : Config → List Raw → Config × Option Error
  NewConfigTemplate : Option Error
  Process : StringMap → String → String × Option String
  DefaultConfig : ApiConfig
  NewClient : ApiConfig → Option Client × Option Error
  templatesOrder : List TemplateKey
  templatesOrder_perm : templatesOrder.Perm
    [TemplateKey.address, TemplateKey.scheme, TemplateKey.datacenter, TemplateKey.token]

/-- The loop of `Configure` over `templates`: each field is replaced by what
`Process` returns for it, and an error of `Process` is appended to `errs`. -/
def Configure.templatesLoop {Raw : Type} (env : Env Raw) (userVars : StringMap) :
    List TemplateKey → Config × List String → Config × List String
  | [], state => state
  | key :: rest, (config, errs) =>
    let (value, err) := env.Process userVars (config.get key)
    let config := config.set key value
    let errs :=
      match err with
      | some e => errs ++ ["Error processing " ++ key.name ++ ": " ++ e]
      | none => errs
    Configure.templatesLoop env userVars rest (config, errs)

/-- The keys of the `required` map of `Configure`. -/
def Configure.required : List TemplateKey := [TemplateKey.address]

/-- The loop of `Configure` over `required`. -/
def Configure.requiredLoop (config : Config) : List TemplateKey → List String → List String
  | [], errs => errs
  | key :: rest, errs =>
    let errs := if config.get key = "" then errs ++ [key.name ++ " must be set"] else errs
    Configure.requiredLoop config rest errs

/-- The settings `Configure` builds for the store client, from the defaults of
the store (`api.DefaultConfig()`) and the resolved configuration. -/
def Configure.clientConfig (defaults : ApiConfig) (config : Config) : ApiConfig :=
  let c := defaults
  let c := if config.Address ≠ "" then { c with Address := config.Address } else c
  let c := if config.Scheme ≠ "" then { c with Scheme := config.Scheme } else c
  let c := if config.Datacenter ≠ "" then { c with Datacenter := config.Datacenter } else c
  let c := if config.Token ≠ "" then { c with Token := config.Token } else c
  c

/-- What a call of `Configure` returns and leaves behind: the post-processor
after the call, the returned error, and the settings handed to
`api.NewClient`, one per call of it. -/
structure ConfigureResult where
  p : PostProcessor
  err : Option Error
  built : List ApiConfig

/-- `PostProcessor.Configure`. -/
def PostProcessor.Configure {Raw : Type} (env : Env Raw) (p : PostProcessor)
    (raws : List Raw) : ConfigureResult :=
  match env.DecodeConfig p.config raws with
  | (config, some err) => { p := { p with config := config }, err := some err, built := [] }
  | (config, none) =>
    match env.NewConfigTemplate with
    | some err => { p := { p with config := config }, err := some err, built := [] }
    | none =>
      let userVars := config.PackerUserVars
      let (config, errs) :=
        Configure.templatesLoop env userVars env.templatesOrder (config, [])
      let errs := Configure.requiredLoop config Configure.required errs
      if errs.length > 0 then
        { p := { p with config := config }, err := some (Error.multi errs), built := [] }
      else
        let c := Configure.clientConfig env.DefaultConfig config
        match env.NewClient c with
        | (client, some err) =>
          { p := { config := config, client := client }, err := some err, built := [c] }
        | (client, none) =>
          { p := { config := config, client := client }, err := none, built := [c] }

/-! ## Sample inputs -/

/-- A configuration with nothing set. -/
def emptyConfig : Config :=
  { PackerUserVars := ∅, Artifact := "", Type_ := "", TypeOverride := false,
    Metadata := none, Address := "", Scheme := "", Datacenter := "", Token := "" }

/-- An artifact without embedded state. -/
def plainArtifact (builderId id : String) : Artifact :=
  { BuilderId := builderId, Id := id, State := fun _ => none }

/-- The post-processor of the end-to-end example: configured metadata
`build = 42`. -/
def e2ePostProcessor : PostProcessor :=
  { config := { emptyConfig with Metadata := some (AList.singleton "build" "42") },
    client := none }

/-- The artifact of the end-to-end example. -/
def e2eArtifact : Artifact := plainArtifact "mitchellh.amazonebs" "us-east-1:ami-0001"

/-- The embedded metadata of the merge example: env = prod, owner = team-a. -/
def mergeEmbedded : StringMap :=
  (AList.singleton "owner" "team-a").insert "env" "prod"

/-- The configured metadata of the merge example: owner = team-b, tier = gold. -/
def mergeConfigured : StringMap :=
  (AList.singleton "tier" "gold").insert "owner" "team-b"

/-- An artifact whose state holds `mergeEmbedded` under the metadata key. -/
def mergeArtifact : Artifact :=
  { BuilderId := "mitchellh.amazonebs", Id := "us-east-1:ami-0001",
    State := fun key =>
      if key = ArtifactStateMetadata then some (Value.stringMap mergeEmbedded) else none }

/-- A post-processor whose configured metadata is `mergeConfigured`. -/
def mergePostProcessor : PostProcessor :=
  { config := { emptyConfig with Metadata := some mergeConfigured }, client := none }

/-- An artifact whose state holds `v` under the type key and nothing else. -/
def typedArtifact (v : Value) : Artifact :=
  { BuilderId := "mitchellh.amazonebs", Id := "us-east-1:ami-0001",
    State := fun key => if key = ArtifactStateType then some v else none }

/-- A post-processor with the given `artifact_type` and
`artifact_type_override`. -/
def typePostProcessor (type : String) (override : Bool) : PostProcessor :=
  { config := { emptyConfig with Type_ := type, TypeOverride := override }, client := none }

/-- Sample surroundings of `Configure`: the raw configuration is the list of
configurations to take (the last one wins), templates expand to themselves,
the store defaults are those of a local agent, and a client is always made. -/
def sampleEnv : Env Config :=
  { DecodeConfig := fun config raws => (raws.foldl (fun _ raw => raw) config, none),
    NewConfigTemplate := none,
    Process := fun _ s => (s, none),
    DefaultConfig :=
      { Address := "127.0.0.1:8500", Scheme := "http", Datacenter := "", Token := "",
        HttpClient := 0, HttpAuth := none, WaitTime := 0 },
    NewClient := fun c => (some { config := c }, none),
    templatesOrder :=
      [TemplateKey.token, TemplateKey.address, TemplateKey.datacenter, TemplateKey.scheme],
    templatesOrder_perm := by decide }

/-- A post-processor before `Configure`. -/
def freshPostProcessor : PostProcessor := { config := emptyConfig, client := none }

/-- A raw configuration with an address and a token, and nothing else. -/
def addressedConfig : Config :=
  { emptyConfig with Address := "consul.example:8500", Token := "t0" }

/-- Reading a key of a Go map that may be `nil`: a `nil` map has no entries. -/
def mapGet (m : Option StringMap) (k : String) : Option String :=
  match m with
  | none => none
  | some m => m.lookup k

/-- The entry of the aggregated error for a key: present when the expansion of
the field of that key, as decoded, fails. -/
def expansionFailure {Raw : Type} (env : Env Raw) (config : Config) (k : TemplateKey) :
    Option String :=
  (env.Process config.PackerUserVars (config.get k)).2.map
    (fun e => "Error processing " ++ k.name ++ ": " ++ e)

/-- The entry of the aggregated error for a missing address: present when the
address, as decoded, expands to the empty string. -/
def missingAddress {Raw : Type} (env : Env Raw) (config : Config) : List String :=
  if (env.Process config.PackerUserVars config.Address).1 = "" then ["address must be set"]
  else []

/-- Surroundings of `Configure` in which the template "bad" fails to expand (to
the empty string, with the error "template error") and every other template
expands to itself. -/
def failingEnv : Env Config :=
  { sampleEnv with
    Process := fun _ s => if s = "bad" then ("", some "template error") else (s, none) }

/-- A raw configuration without address whose scheme and token do not
expand. -/
def brokenConfig : Config :=
  { emptyConfig with Scheme := "bad", Datacenter := "dc1", Token := "bad" }

/-! ## Lemmas -/

theorem lookup_builtins_none (b : String) :
    builtins.lookup b = none ↔
      b ≠ "mitchellh.amazonebs" ∧ b ≠ "mitchellh.amazon.instance" := by
  simp only [builtins, List.lookup]
  by_cases h1 : b = "mitchellh.amazonebs"
  · subst h1; simp
  · by_cases h2 : b = "mitchellh.amazon.instance"
    · subst h2; simp
    · have e1 : (b == "mitchellh.amazonebs") = false := by simpa using h1
      have e2 : (b == "mitchellh.amazon.instance") = false := by simpa using h2
      simp [e1, e2, h1, h2]

theorem lookup_builtins_some (b : String)
    (h : b = "mitchellh.amazonebs" ∨ b = "mitchellh.amazon.instance") :
    ∃ kind, builtins.lookup b = some kind := by
  rcases h with h | h <;> subst h
  · exact ⟨"amazonebs", by decide⟩
  · exact ⟨"amazoninstance", by decide⟩

theorem splitChars_ne_nil (sep : Char) (l : List Char) : splitChars sep l ≠ [] := by
  cases l with
  | nil => simp [splitChars]
  | cons c cs =>
    simp only [splitChars]
    split
    · simp
    · split <;> simp

theorem mk_append (a b : List Char) : String.mk a ++ String.mk b = String.mk (a ++ b) := by
  apply String.ext
  simp

/-- Joining the pieces of a split with the separator gives the input back. -/
theorem Join_splitChars (sep : Char) (l : List Char) :
    Join ((splitChars sep l).map String.mk) (String.mk [sep]) = String.mk l := by
  induction l with
  | nil => simp [splitChars, Join]
  | cons c cs ih =>
    simp only [splitChars]
    split
    · rename_i hc
      subst hc
      cases hs : splitChars c cs with
      | nil => exact absurd hs (splitChars_ne_nil _ _)
      | cons piece pieces =>
        rw [hs] at ih
        simp only [List.map_cons, Join] at ih ⊢
        rw [ih, mk_append, mk_append]
        simp
    · cases hs : splitChars sep cs with
      | nil => exact absurd hs (splitChars_ne_nil _ _)
      | cons piece pieces =>
        rw [hs] at ih
        cases pieces with
        | nil =>
          simp only [List.map_cons, List.map_nil, Join] at ih ⊢
          injection ih with ih
          rw [ih]
        | cons q qs =>
          simp only [List.map_cons, Join] at ih ⊢
          have hd := congrArg String.data ih
          apply String.ext
          simp only [String.data_append] at hd ⊢
          rw [← hd]
          simp

theorem Join_Split (s : String) (sep : Char) :
    Join (Split s sep) (String.mk [sep]) = s := by
  unfold Split
  rw [Join_splitChars]

theorem unitPair_join (unit : String) (h : (Split unit ':').length = 2) :
    (unitPair unit).1 ++ ":" ++ (unitPair unit).2 = unit := by
  have hj := Join_Split unit ':'
  unfold unitPair
  match hs : Split unit ':', h with
  | [a, b], _ =>
    rw [hs] at hj
    simpa [Join] using hj

theorem parseUnits_wellFormed (identifier : String) (units : List String)
    (h : ∀ u ∈ units, (Split u ':').length = 2) :
    parseUnits identifier units = .ok (units.map unitPair) := by
  induction units with
  | nil => rfl
  | cons u us ih =>
    have hu : (Split u ':').length = 2 := h u (List.mem_cons_self _ _)
    have hus := ih (fun v hv => h v (List.mem_cons_of_mem _ hv))
    match hs : Split u ':', hu with
    | [a, b], _ =>
      simp only [parseUnits, hs, hus, List.map_cons, unitPair]
      rfl

/-- The loop over well-formed units runs to its end and reports every unit,
in order. -/
theorem loop_wellFormed (artifact : Artifact) (units : List String) (ui : Ui)
    (h : ∀ u ∈ units, (Split u ':').length = 2) :
    PostProcess.loop artifact units ui =
      (none, { messages := ui.messages ++ unitMessages (units.map unitPair) }) := by
  induction units generalizing ui with
  | nil => simp [PostProcess.loop, unitMessages]
  | cons u us ih =>
    have hu : (Split u ':').length = 2 := h u (List.mem_cons_self _ _)
    have hus := fun ui => ih ui (fun v hv => h v (List.mem_cons_of_mem _ hv))
    simp only [PostProcess.loop, hu, ne_eq, not_true_eq_false, if_false, hus]
    simp [Ui.Message, unitMessages, unitPair]

/-- The loop stops at the first malformed unit, having reported the units
before it and nothing else. -/
theorem loop_stops (artifact : Artifact) (before : List String) (bad : String)
    (after : List String) (ui : Ui)
    (hbefore : ∀ u ∈ before, (Split u ':').length = 2)
    (hbad : (Split bad ':').length ≠ 2) :
    PostProcess.loop artifact (before ++ bad :: after) ui =
      (some (Error.msg ("Poorly formatted artifact ID: " ++ artifact.Id)),
       { messages := ui.messages ++ unitMessages (before.map unitPair) }) := by
  induction before generalizing ui with
  | nil => simp [PostProcess.loop, hbad, unitMessages]
  | cons u us ih =>
    have hu : (Split u ':').length = 2 := hbefore u (List.mem_cons_self _ _)
    have hus := fun ui => ih ui (fun v hv => hbefore v (List.mem_cons_of_mem _ hv))
    simp only [List.cons_append, PostProcess.loop, hu, ne_eq, not_true_eq_false, if_false]
    change PostProcess.loop artifact (us ++ bad :: after) _ = _
    rw [hus]
    simp [Ui.Message, unitMessages, unitPair]

/-- A list with a malformed unit splits at its first malformed unit. -/
theorem first_malformed (units : List String)
    (h : ∃ u ∈ units, (Split u ':').length ≠ 2) :
    ∃ before bad after, units = before ++ bad :: after ∧
      (∀ u ∈ before, (Split u ':').length = 2) ∧ (Split bad ':').length ≠ 2 := by
  induction units with
  | nil => simp at h
  | cons u us ih =>
    by_cases hu : (Split u ':').length = 2
    · have h2 : ∃ v ∈ us, (Split v ':').length ≠ 2 := by
        obtain ⟨v, hv, hl⟩ := h
        rcases List.mem_cons.mp hv with rfl | hv
        · exact absurd hu hl
        · exact ⟨v, hv, hl⟩
      obtain ⟨before, bad, after, he, hb, hbad⟩ := ih h2
      refine ⟨u :: before, bad, after, by simp [he], ?_, hbad⟩
      intro v hv
      rcases List.mem_cons.mp hv with rfl | hv
      · exact hu
      · exact hb v hv
    · exact ⟨[], u, us, rfl, by simp, hu⟩

theorem unitMessages_injective (ps qs : List (String × String))
    (h : unitMessages ps = unitMessages qs) : ps = qs := by
  induction ps generalizing qs with
  | nil =>
    cases qs with
    | nil => rfl
    | cons q qs => simp [unitMessages] at h
  | cons pr ps ih =>
    cases qs with
    | nil => simp [unitMessages] at h
    | cons q qs =>
      simp only [unitMessages, List.flatMap_cons, List.cons_append, List.nil_append,
        List.cons.injEq] at h
      obtain ⟨h0, h1, ht⟩ := h
      have e0 : pr.1 = q.1 := by
        apply String.ext
        have := congrArg String.data h0
        simpa using this
      have e1 : pr.2 = q.2 := by
        apply String.ext
        have := congrArg String.data h1
        simpa using this
      rw [ih qs ht, Prod.ext e0 e1]

/-! ## PostProcess: the classifier gate and the identifier check -/

/-- C1: for an artifact whose BuilderId is neither of the two keys of `builtins`,
whatever its identifier and the configuration, PostProcess returns the error
"Unsupported artifact type: " followed by the BuilderId, returns no artifact
(and `false`), and leaves the store as it was (no write). -/
theorem PostProcess_unsupported (p : PostProcessor) (ui : Ui) (store : Store)
    (artifact : Artifact)
    (h1 : artifact.BuilderId ≠ "mitchellh.amazonebs")
    (h2 : artifact.BuilderId ≠ "mitchellh.amazon.instance") :
    (p.PostProcess ui store artifact).err =
        some (Error.msg ("Unsupported artifact type: " ++ artifact.BuilderId)) ∧
      (p.PostProcess ui store artifact).artifact = none ∧
      (p.PostProcess ui store artifact).keep = false ∧
      (p.PostProcess ui store artifact).store = store := by
  have hl := (lookup_builtins_none artifact.BuilderId).mpr ⟨h1, h2⟩
  simp [PostProcessor.PostProcess, hl]

theorem PostProcess_unsupported_witness :
    (plainArtifact "mitchellh.docker" "us-east-1:ami-0001").BuilderId ≠ "mitchellh.amazonebs" ∧
      (e2ePostProcessor.PostProcess { messages := [] } []
          (plainArtifact "mitchellh.docker" "us-east-1:ami-0001")).err =
        some (Error.msg "Unsupported artifact type: mitchellh.docker") ∧
      (e2ePostProcessor.PostProcess { messages := [] } []
          (plainArtifact "mitchellh.docker" "us-east-1:ami-0001")).store = [] :=
  have h := PostProcess_unsupported e2ePostProcessor { messages := [] } []
    (plainArtifact "mitchellh.docker" "us-east-1:ami-0001") (by decide) (by decide)
  ⟨by decide, h.1, h.2.2.2⟩

/-- C2: for a supported artifact whose identifier has a `,`-separated unit that
does not split on `:` into exactly two parts, PostProcess returns the error
"Poorly formatted artifact ID: " followed by the whole identifier, returns no
artifact, and leaves the store as it was. -/
theorem PostProcess_malformed (p : PostProcessor) (ui : Ui) (store : Store)
    (artifact : Artifact)
    (hs : artifact.BuilderId = "mitchellh.amazonebs" ∨
      artifact.BuilderId = "mitchellh.amazon.instance")
    (hbad : ∃ u ∈ Split artifact.Id ',', (Split u ':').length ≠ 2) :
    (p.PostProcess ui store artifact).err =
        some (Error.msg ("Poorly formatted artifact ID: " ++ artifact.Id)) ∧
      (p.PostProcess ui store artifact).artifact = none ∧
      (p.PostProcess ui store artifact).keep = false ∧
      (p.PostProcess ui store artifact).store = store := by
  obtain ⟨kind, hk⟩ := lookup_builtins_some _ hs
  obtain ⟨before, bad, after, he, hb, hbad2⟩ := first_malformed _ hbad
  have hl := loop_stops artifact before bad after ui hb hbad2
  rw [← he] at hl
  simp [PostProcessor.PostProcess, hk, hl]

theorem PostProcess_malformed_witness :
    (∃ u ∈ Split (plainArtifact "mitchellh.amazonebs" "us-east-1-ami-111").Id ',',
        (Split u ':').length ≠ 2) ∧
      (e2ePostProcessor.PostProcess { messages := [] } []
          (plainArtifact "mitchellh.amazonebs" "us-east-1-ami-111")).err =
        some (Error.msg "Poorly formatted artifact ID: us-east-1-ami-111") ∧
      (e2ePostProcessor.PostProcess { messages := [] } []
          (plainArtifact "mitchellh.amazonebs" "us-east-1-ami-111")).store = [] :=
  have hbad : ∃ u ∈ Split (plainArtifact "mitchellh.amazonebs" "us-east-1-ami-111").Id ',',
      (Split u ':').length ≠ 2 := ⟨"us-east-1-ami-111", by decide, by decide⟩
  have h := PostProcess_malformed e2ePostProcessor { messages := [] } []
    (plainArtifact "mitchellh.amazonebs" "us-east-1-ami-111") (Or.inl rfl) hbad
  ⟨hbad, h.1, h.2.2.2⟩

/-- What PostProcess does with a supported artifact whose identifier is well
formed. -/
theorem PostProcess_wellFormed_eq (p : PostProcessor) (ui : Ui) (store : Store)
    (artifact : Artifact)
    (hs : artifact.BuilderId = "mitchellh.amazonebs" ∨
      artifact.BuilderId = "mitchellh.amazon.instance")
    (hwf : ∀ u ∈ Split artifact.Id ',', (Split u ':').length = 2) :
    p.PostProcess ui store artifact =
      { artifact := some artifact, keep := false, err := none,
        ui := { messages := ui.messages ++
          unitMessages ((Split artifact.Id ',').map unitPair) ++ ["AMI IDs: " ++ artifact.Id] },
        store := store } := by
  obtain ⟨kind, hk⟩ := lookup_builtins_some _ hs
  have hl := loop_wellFormed artifact _ ui hwf
  simp [PostProcessor.PostProcess, hk, hl, Ui.Message]

/-- C3: the code at the end-to-end example (BuilderId "mitchellh.amazonebs",
identifier "us-east-1:ami-0001" of one unit, no embedded metadata, configured
metadata build = 42, empty store).  The call succeeds and the store is still
empty afterwards: no record was put, where one record per unit is due. -/
theorem PostProcess_e2e_publishes_nothing :
    e2ePostProcessor.config.Metadata = some (AList.singleton "build" "42") ∧
      (Split e2eArtifact.Id ',').length = 1 ∧
      (e2ePostProcessor.PostProcess { messages := [] } [] e2eArtifact).err = none ∧
      (e2ePostProcessor.PostProcess { messages := [] } [] e2eArtifact).store = [] ∧
      ¬ (e2ePostProcessor.PostProcess { messages := [] } [] e2eArtifact).store.length =
        (Split e2eArtifact.Id ',').length := by
  refine ⟨rfl, by decide, by decide, rfl, by decide⟩

/-- C4: for a supported artifact whose identifier is well formed, PostProcess
returns the very artifact it was given, `false` for keepOriginal, and no
error. -/
theorem PostProcess_returns_artifact (p : PostProcessor) (ui : Ui) (store : Store)
    (artifact : Artifact)
    (hs : artifact.BuilderId = "mitchellh.amazonebs" ∨
      artifact.BuilderId = "mitchellh.amazon.instance")
    (hwf : ∀ u ∈ Split artifact.Id ',', (Split u ':').length = 2) :
    (p.PostProcess ui store artifact).artifact = some artifact ∧
      (p.PostProcess ui store artifact).keep = false ∧
      (p.PostProcess ui store artifact).err = none := by
  rw [PostProcess_wellFormed_eq p ui store artifact hs hwf]
  exact ⟨rfl, rfl, rfl⟩

theorem PostProcess_returns_artifact_witness :
    (∀ u ∈ Split (plainArtifact "mitchellh.amazon.instance" "eu-west-1:ami-7,us-east-1:ami-8").Id ',',
        (Split u ':').length = 2) ∧
      (e2ePostProcessor.PostProcess { messages := [] } []
          (plainArtifact "mitchellh.amazon.instance" "eu-west-1:ami-7,us-east-1:ami-8")).artifact =
        some (plainArtifact "mitchellh.amazon.instance" "eu-west-1:ami-7,us-east-1:ami-8") ∧
      (e2ePostProcessor.PostProcess { messages := [] } []
          (plainArtifact "mitchellh.amazon.instance" "eu-west-1:ami-7,us-east-1:ami-8")).keep = false ∧
      (e2ePostProcessor.PostProcess { messages := [] } []
          (plainArtifact "mitchellh.amazon.instance" "eu-west-1:ami-7,us-east-1:ami-8")).err = none :=
  ⟨by decide,
    PostProcess_returns_artifact e2ePostProcessor { messages := [] } []
      (plainArtifact "mitchellh.amazon.instance" "eu-west-1:ami-7,us-east-1:ami-8")
      (Or.inr rfl) (by decide)⟩

/-- C5: for a supported artifact with a well-formed identifier there is exactly
one sequence of (region, value) pairs that the per-unit messages of PostProcess
report; it is the result of the specified parser, it lists the units of the
identifier from left to right, one pair per unit (nothing dropped or merged),
and joining each pair with ":" and the pairs with "," gives the identifier
back.  For "us-east-1:ami-111,us-west-2:ami-222" the pairs are
("us-east-1", "ami-111") then ("us-west-2", "ami-222"). -/
theorem PostProcess_units_roundtrip (p : PostProcessor) (ui : Ui) (store : Store)
    (artifact : Artifact)
    (hs : artifact.BuilderId = "mitchellh.amazonebs" ∨
      artifact.BuilderId = "mitchellh.amazon.instance")
    (hwf : ∀ u ∈ Split artifact.Id ',', (Split u ':').length = 2) :
    (∃ pairs : List (String × String),
      parse artifact.Id = .ok pairs ∧
      (p.PostProcess ui store artifact).ui.messages =
        ui.messages ++ unitMessages pairs ++ ["AMI IDs: " ++ artifact.Id] ∧
      (∀ others : List (String × String),
        (p.PostProcess ui store artifact).ui.messages =
          ui.messages ++ unitMessages others ++ ["AMI IDs: " ++ artifact.Id] →
        others = pairs) ∧
      pairs.map (fun pr => pr.1 ++ ":" ++ pr.2) = Split artifact.Id ',' ∧
      Join (pairs.map (fun pr => pr.1 ++ ":" ++ pr.2)) "," = artifact.Id) ∧
    parse "us-east-1:ami-111,us-west-2:ami-222" =
      .ok [("us-east-1", "ami-111"), ("us-west-2", "ami-222")] := by
  refine ⟨⟨(Split artifact.Id ',').map unitPair, ?_, ?_, ?_, ?_, ?_⟩, rfl⟩
  · exact parseUnits_wellFormed _ _ hwf
  · rw [PostProcess_wellFormed_eq p ui store artifact hs hwf]
  · intro others ho
    rw [PostProcess_wellFormed_eq p ui store artifact hs hwf] at ho
    have h1 := List.append_cancel_right ho
    have h2 := List.append_cancel_left h1
    exact (unitMessages_injective _ _ h2).symm
  · rw [List.map_map]
    conv_rhs => rw [← List.map_id (Split artifact.Id ',')]
    apply List.map_congr_left
    intro u hu
    exact unitPair_join u (hwf u hu)
  · have hm : ((Split artifact.Id ',').map unitPair).map (fun pr => pr.1 ++ ":" ++ pr.2) =
        Split artifact.Id ',' := by
      rw [List.map_map]
      conv_rhs => rw [← List.map_id (Split artifact.Id ',')]
      apply List.map_congr_left
      intro u hu
      exact unitPair_join u (hwf u hu)
    rw [hm]
    exact Join_Split artifact.Id ','

theorem PostProcess_units_roundtrip_witness :
    (∀ u ∈ Split (plainArtifact "mitchellh.amazonebs" "us-east-1:ami-111,us-west-2:ami-222").Id ',',
        (Split u ':').length = 2) ∧
      (e2ePostProcessor.PostProcess { messages := [] } []
          (plainArtifact "mitchellh.amazonebs" "us-east-1:ami-111,us-west-2:ami-222")).ui.messages =
        [] ++ unitMessages [("us-east-1", "ami-111"), ("us-west-2", "ami-222")] ++
          ["AMI IDs: us-east-1:ami-111,us-west-2:ami-222"] :=
  have h := PostProcess_units_roundtrip e2ePostProcessor { messages := [] } []
    (plainArtifact "mitchellh.amazonebs" "us-east-1:ami-111,us-west-2:ami-222")
    (Or.inl rfl) (by decide)
  ⟨by decide, by
    obtain ⟨⟨pairs, hp, hm, -⟩, hex⟩ := h
    have he : pairs = [("us-east-1", "ami-111"), ("us-west-2", "ami-222")] := by
      have h2 := hp.symm.trans hex
      injection h2
    rw [← he]
    exact hm⟩

/-! ## metadata -/

/-- Looking a key up after assigning a list of entries with distinct keys: the
entry of the list wins, otherwise the map is read as before. -/
theorem lookup_foldl_insert (es : List (Sigma fun _ : String => String))
    (hn : es.NodupKeys) (m : StringMap) (k : String) :
    (es.foldl (fun acc kv => acc.insert kv.1 kv.2) m).lookup k =
      match es.dlookup k with
      | some v => some v
      | none => m.lookup k := by
  induction es generalizing m with
  | nil => simp
  | cons e es ih =>
    obtain ⟨k0, v0⟩ := e
    rw [List.nodupKeys_cons] at hn
    rw [List.foldl_cons, ih hn.2]
    by_cases hk : k = k0
    · subst hk
      have hnone : es.dlookup k = none := List.dlookup_eq_none.mpr hn.1
      simp [hnone, AList.lookup_insert]
    · have hne : k0 ≠ k := fun h => hk h.symm
      rw [List.dlookup_cons_ne _ _ hk, AList.lookup_insert_ne hk]

/-- C6: when the artifact holds an embedded metadata mapping E and the
configuration holds a metadata mapping C, metadata() returns (without panic) a
mapping M whose keys are exactly the keys of E together with the keys of C,
with M[k] = C[k] for every key of C and M[k] = E[k] for every key of E that is
not a key of C. -/
theorem metadata_merge (p : PostProcessor) (artifact : Artifact) (E C : StringMap)
    (hE : artifact.State ArtifactStateMetadata = some (Value.stringMap E))
    (hC : p.config.Metadata = some C) :
    ∃ M : StringMap, p.metadata artifact = .ok (some M) ∧
      (∀ k, k ∈ M ↔ k ∈ E ∨ k ∈ C) ∧
      (∀ k v, C.lookup k = some v → M.lookup k = some v) ∧
      (∀ k, k ∉ C → M.lookup k = E.lookup k) := by
  refine ⟨C.entries.foldl (fun acc kv => acc.insert kv.1 kv.2) E, ?_, ?_, ?_, ?_⟩
  · simp [PostProcessor.metadata, hE, hC, Decode]
  · intro k
    rw [← AList.lookup_isSome, ← AList.lookup_isSome, ← AList.lookup_isSome,
      lookup_foldl_insert _ C.nodupKeys]
    change (match C.lookup k with | some v => some v | none => E.lookup k).isSome = true ↔ _
    cases hc : C.lookup k <;> simp
  · intro k v hv
    rw [lookup_foldl_insert _ C.nodupKeys]
    change (match C.lookup k with | some v => some v | none => E.lookup k) = _
    rw [hv]
  · intro k hk
    rw [lookup_foldl_insert _ C.nodupKeys]
    change (match C.lookup k with | some v => some v | none => E.lookup k) = _
    rw [AList.lookup_eq_none.mpr hk]

theorem metadata_merge_witness :
    mergeArtifact.State ArtifactStateMetadata = some (Value.stringMap mergeEmbedded) ∧
      mergePostProcessor.config.Metadata = some mergeConfigured ∧
      ∃ M : StringMap, mergePostProcessor.metadata mergeArtifact = .ok (some M) ∧
        (∀ k, k ∈ M ↔ k = "env" ∨ k = "owner" ∨ k = "tier") ∧
        M.lookup "env" = some "prod" ∧ M.lookup "owner" = some "team-b" ∧
        M.lookup "tier" = some "gold" := by
  refine ⟨rfl, rfl, ?_⟩
  obtain ⟨M, hM, hkeys, hC, hE⟩ :=
    metadata_merge mergePostProcessor mergeArtifact mergeEmbedded mergeConfigured rfl rfl
  refine ⟨M, hM, ?_, ?_, ?_, ?_⟩
  · intro k
    rw [hkeys k]
    simp only [mergeEmbedded, mergeConfigured, AList.mem_insert]
    simp only [AList.mem_keys, AList.keys_singleton, List.mem_singleton]
    tauto
  · rw [hE "env" (by
      simp only [mergeConfigured, AList.mem_insert]
      simp only [AList.mem_keys, AList.keys_singleton, List.mem_singleton]
      decide)]
    decide
  · exact hC "owner" "team-b" (by decide)
  · exact hC "tier" "gold" (by decide)

/-! ## artifactType -/

theorem artifactType_embedded (p : PostProcessor) (artifact : Artifact) (t : String)
    (ho : p.config.TypeOverride = false)
    (hs : artifact.State ArtifactStateType = some (Value.string t)) :
    p.artifactType artifact = .ok t := by
  simp [PostProcessor.artifactType, ho, hs]

theorem artifactType_override (p : PostProcessor) (artifact : Artifact)
    (ho : p.config.TypeOverride = true) :
    p.artifactType artifact = .ok p.config.Type_ := by
  simp [PostProcessor.artifactType, ho]

theorem artifactType_absent (p : PostProcessor) (artifact : Artifact)
    (hs : artifact.State ArtifactStateType = none) :
    p.artifactType artifact = .ok p.config.Type_ := by
  cases ho : p.config.TypeOverride <;> simp [PostProcessor.artifactType, ho, hs]

/-- C7: if artifact_type_override is false and the artifact holds a string t
under the type key, artifactType() returns t, whatever artifact_type is
configured; if the override is true, or if the artifact holds nothing under the
type key, it returns the configured artifact_type, whatever the artifact
holds. -/
theorem artifactType_resolution :
    (∀ (p : PostProcessor) (artifact : Artifact) (t : String),
      p.config.TypeOverride = false →
      artifact.State ArtifactStateType = some (Value.string t) →
      p.artifactType artifact = .ok t) ∧
    (∀ (p : PostProcessor) (artifact : Artifact),
      p.config.TypeOverride = true →
      p.artifactType artifact = .ok p.config.Type_) ∧
    (∀ (p : PostProcessor) (artifact : Artifact),
      artifact.State ArtifactStateType = none →
      p.artifactType artifact = .ok p.config.Type_) := by
  exact ⟨artifactType_embedded, artifactType_override, artifactType_absent⟩

theorem artifactType_resolution_witness :
    (typePostProcessor "iso" false).artifactType (typedArtifact (Value.string "ami")) = .ok "ami" ∧
      (typePostProcessor "iso" true).artifactType (typedArtifact (Value.string "ami")) = .ok "iso" ∧
      (typePostProcessor "iso" false).artifactType (plainArtifact "b" "r:v") = .ok "iso" :=
  ⟨artifactType_resolution.1 (typePostProcessor "iso" false)
      (typedArtifact (Value.string "ami")) "ami" rfl rfl,
    artifactType_resolution.2.1 (typePostProcessor "iso" true)
      (typedArtifact (Value.string "ami")) rfl,
    artifactType_resolution.2.2 (typePostProcessor "iso" false) (plainArtifact "b" "r:v") rfl⟩

/-- C8, as the code has it: when the override is set, or the artifact holds
nothing or a string under the type key, artifactType() returns a string and
does not panic; and when the artifact holds nothing under the type key and no
artifact_type is configured, it returns the empty string. -/
theorem artifactType_total_on_strings :
    (∀ (p : PostProcessor) (artifact : Artifact),
      (p.config.TypeOverride = true ∨ artifact.State ArtifactStateType = none ∨
        ∃ t, artifact.State ArtifactStateType = some (Value.string t)) →
      ∃ s, p.artifactType artifact = .ok s) ∧
    (∀ (p : PostProcessor) (artifact : Artifact),
      artifact.State ArtifactStateType = none → p.config.Type_ = "" →
      p.artifactType artifact = .ok "") := by
  refine ⟨?_, ?_⟩
  · intro p artifact h
    rcases h with ho | hs | ⟨t, hs⟩
    · exact ⟨_, artifactType_override p artifact ho⟩
    · exact ⟨_, artifactType_absent p artifact hs⟩
    · cases ho : p.config.TypeOverride
      · exact ⟨_, artifactType_embedded p artifact t ho hs⟩
      · exact ⟨_, artifactType_override p artifact ho⟩
  · intro p artifact hs ht
    rw [← ht]
    exact artifactType_absent p artifact hs

theorem artifactType_total_on_strings_witness :
    (∃ s, (typePostProcessor "" false).artifactType (typedArtifact (Value.string "ami")) = .ok s) ∧
      (typePostProcessor "" false).artifactType (plainArtifact "b" "r:v") = .ok "" :=
  ⟨artifactType_total_on_strings.1 (typePostProcessor "" false)
      (typedArtifact (Value.string "ami")) (Or.inr (Or.inr ⟨"ami", rfl⟩)),
    artifactType_total_on_strings.2 (typePostProcessor "" false) (plainArtifact "b" "r:v")
      rfl rfl⟩

/-- C8, counterexample: with the override off, an artifact that holds the
integer 5 under the type key makes artifactType() panic on the type assertion:
it returns no string. -/
theorem artifactType_panics_on_int :
    (typePostProcessor "iso" false).config.TypeOverride = false ∧
      (typedArtifact (Value.int 5)).State ArtifactStateType = some (Value.int 5) ∧
      (typePostProcessor "iso" false).artifactType (typedArtifact (Value.int 5)) =
        .error (Error.msg "interface conversion: interface is int, not string") ∧
      ¬ ∃ s, (typePostProcessor "iso" false).artifactType (typedArtifact (Value.int 5)) =
        .ok s := by
  refine ⟨rfl, rfl, rfl, ?_⟩
  rintro ⟨s, hs⟩
  have h : (typePostProcessor "iso" false).artifactType (typedArtifact (Value.int 5)) =
      .error (Error.msg "interface conversion: interface is int, not string") := rfl
  rw [h] at hs
  cases hs

/-! ## Configure -/

theorem Config.get_set_same (c : Config) (k : TemplateKey) (v : String) :
    (c.set k v).get k = v := by
  cases k <;> rfl

theorem Config.get_set_ne (c : Config) (k k0 : TemplateKey) (v : String) (h : k ≠ k0) :
    (c.set k0 v).get k = c.get k := by
  cases k <;> cases k0 <;> first | rfl | exact absurd rfl h

/-- After the loop over distinct keys each visited field holds what `Process`
returned for its value before the loop; the other fields are as before. -/
theorem templatesLoop_get {Raw : Type} (env : Env Raw) (userVars : StringMap)
    (order : List TemplateKey) (hn : order.Nodup) (config : Config) (errs : List String)
    (k : TemplateKey) :
    (Configure.templatesLoop env userVars order (config, errs)).1.get k =
      if k ∈ order then (env.Process userVars (config.get k)).1 else config.get k := by
  induction order generalizing config errs with
  | nil => simp [Configure.templatesLoop]
  | cons k0 rest ih =>
    rw [List.nodup_cons] at hn
    simp only [Configure.templatesLoop]
    rw [ih hn.2]
    by_cases hk : k = k0
    · subst hk
      simp [hn.1, Config.get_set_same]
    · simp [hk, Config.get_set_ne _ _ _ _ hk]

/-- The errors after the loop over distinct keys: those before it, then one for
each visited key whose expansion failed, in the order of the visit. -/
theorem templatesLoop_errs {Raw : Type} (env : Env Raw) (userVars : StringMap)
    (order : List TemplateKey) (hn : order.Nodup) (config : Config) (errs : List String) :
    (Configure.templatesLoop env userVars order (config, errs)).2 =
      errs ++ order.filterMap (fun k =>
        (env.Process userVars (config.get k)).2.map
          (fun e => "Error processing " ++ k.name ++ ": " ++ e)) := by
  induction order generalizing config errs with
  | nil => simp [Configure.templatesLoop]
  | cons k0 rest ih =>
    rw [List.nodup_cons] at hn
    simp only [Configure.templatesLoop]
    rw [ih hn.2]
    have hrest : ∀ k ∈ rest,
        (config.set k0 (env.Process userVars (config.get k0)).1).get k = config.get k := by
      intro k hk
      apply Config.get_set_ne
      rintro rfl
      exact hn.1 hk
    have hf : rest.filterMap (fun k =>
          (env.Process userVars
            ((config.set k0 (env.Process userVars (config.get k0)).1).get k)).2.map
            (fun e => "Error processing " ++ k.name ++ ": " ++ e)) =
        rest.filterMap (fun k =>
          (env.Process userVars (config.get k)).2.map
            (fun e => "Error processing " ++ k.name ++ ": " ++ e)) := by
      apply List.filterMap_congr
      intro k hk
      rw [hrest k hk]
    rw [hf]
    cases he : (env.Process userVars (config.get k0)).2 <;> simp [he]

theorem templatesOrder_nodup {Raw : Type} (env : Env Raw) : env.templatesOrder.Nodup :=
  env.templatesOrder_perm.nodup_iff.mpr (by decide)

theorem mem_templatesOrder {Raw : Type} (env : Env Raw) (k : TemplateKey) :
    k ∈ env.templatesOrder :=
  env.templatesOrder_perm.mem_iff.mpr (by cases k <;> simp)

/-- C9: when the raw configuration decodes (and the template engine is made)
and the address is the empty string after template expansion, Configure
returns an aggregated error that has the entry "address must be set", hands no
settings to `api.NewClient`, and leaves the client of the post-processor as it
was. -/
theorem Configure_missing_address {Raw : Type} (env : Env Raw) (p : PostProcessor)
    (raws : List Raw) (config : Config)
    (hd : env.DecodeConfig p.config raws = (config, none))
    (ht : env.NewConfigTemplate = none)
    (ha : (env.Process config.PackerUserVars config.Address).1 = "") :
    ∃ errs : List String,
      (PostProcessor.Configure env p raws).err = some (Error.multi errs) ∧
      "address must be set" ∈ errs ∧
      (PostProcessor.Configure env p raws).built = [] ∧
      (PostProcessor.Configure env p raws).p.client = p.client := by
  have hget := templatesLoop_get env config.PackerUserVars env.templatesOrder
    (templatesOrder_nodup env) config [] TemplateKey.address
  rw [if_pos (mem_templatesOrder env _)] at hget
  have haddr : (Configure.templatesLoop env config.PackerUserVars env.templatesOrder
      (config, [])).1.get TemplateKey.address = "" := by
    rw [hget]; exact ha
  unfold PostProcessor.Configure
  rw [hd]
  simp only [ht]
  rcases hl : Configure.templatesLoop env config.PackerUserVars env.templatesOrder
    (config, []) with ⟨config2, errs2⟩
  rw [hl] at haddr
  simp only at haddr
  refine ⟨errs2 ++ ["address must be set"], ?_⟩
  simp [Configure.required, Configure.requiredLoop, haddr, TemplateKey.name]

theorem Configure_missing_address_witness :
    (sampleEnv.Process emptyConfig.PackerUserVars emptyConfig.Address).1 = "" ∧
      ∃ errs : List String,
        (PostProcessor.Configure sampleEnv freshPostProcessor [emptyConfig]).err =
          some (Error.multi errs) ∧
        "address must be set" ∈ errs ∧
        (PostProcessor.Configure sampleEnv freshPostProcessor [emptyConfig]).built = [] ∧
        (PostProcessor.Configure sampleEnv freshPostProcessor [emptyConfig]).p.client =
          freshPostProcessor.client :=
  ⟨rfl, Configure_missing_address sampleEnv freshPostProcessor [emptyConfig] emptyConfig
    rfl rfl rfl⟩

/-- What Configure does with a configuration that passes validation. -/
theorem Configure_validated_eq {Raw : Type} (env : Env Raw) (p : PostProcessor)
    (raws : List Raw) (config : Config)
    (hd : env.DecodeConfig p.config raws = (config, none))
    (ht : env.NewConfigTemplate = none)
    (hp : ∀ k, (env.Process config.PackerUserVars (config.get k)).2 = none)
    (ha : (env.Process config.PackerUserVars config.Address).1 ≠ "") :
    ∃ config2 : Config,
      (∀ k, config2.get k = (env.Process config.PackerUserVars (config.get k)).1) ∧
      PostProcessor.Configure env p raws =
        { p := { config := config2,
                 client := (env.NewClient (Configure.clientConfig env.DefaultConfig config2)).1 },
          err := (env.NewClient (Configure.clientConfig env.DefaultConfig config2)).2,
          built := [Configure.clientConfig env.DefaultConfig config2] } := by
  have hget := templatesLoop_get env config.PackerUserVars env.templatesOrder
    (templatesOrder_nodup env) config []
  simp only [mem_templatesOrder, if_true] at hget
  have herrs := templatesLoop_errs env config.PackerUserVars env.templatesOrder
    (templatesOrder_nodup env) config []
  have hnil : ∀ l : List TemplateKey,
      l.filterMap (fun _ => (none : Option String)) = [] := by
    intro l
    induction l with
    | nil => rfl
    | cons k l ih => simp [List.filterMap_cons]
  simp only [hp, Option.map_none', hnil, List.append_nil] at herrs
  unfold PostProcessor.Configure
  rw [hd]
  simp only [ht]
  rcases hl : Configure.templatesLoop env config.PackerUserVars env.templatesOrder
    (config, []) with ⟨config2, errs2⟩
  rw [hl] at hget herrs
  simp only at hget herrs
  subst herrs
  have haddr : config2.Address ≠ "" := by
    have := hget TemplateKey.address
    simp only [Config.get] at this
    rw [this]; exact ha
  have hreq : Configure.requiredLoop config2 Configure.required [] = [] := by
    simp [Configure.required, Configure.requiredLoop, Config.get, haddr]
  refine ⟨config2, hget, ?_⟩
  simp only [hreq, List.length_nil, gt_iff_lt, lt_self_iff_false, if_false]
  rcases hc : env.NewClient (Configure.clientConfig env.DefaultConfig config2) with
    ⟨client, _ | err⟩ <;> rfl

/-- C10: when the configuration passes validation (it decodes, the template
engine is made, no expansion fails and the address is not empty after
expansion), Configure hands `api.NewClient` exactly one settings value; each of
its address, scheme, datacenter and token is the configured (expanded) value
when that value is not empty and the store default when it is empty, and every
other setting is the store default. -/
theorem Configure_client_settings {Raw : Type} (env : Env Raw) (p : PostProcessor)
    (raws : List Raw) (config : Config)
    (hd : env.DecodeConfig p.config raws = (config, none))
    (ht : env.NewConfigTemplate = none)
    (hp : ∀ k, (env.Process config.PackerUserVars (config.get k)).2 = none)
    (ha : (env.Process config.PackerUserVars config.Address).1 ≠ "") :
    ∃ c : ApiConfig,
      (PostProcessor.Configure env p raws).built = [c] ∧
      (PostProcessor.Configure env p raws).p.client = (env.NewClient c).1 ∧
      (PostProcessor.Configure env p raws).err = (env.NewClient c).2 ∧
      (∀ k, (PostProcessor.Configure env p raws).p.config.get k =
        (env.Process config.PackerUserVars (config.get k)).1) ∧
      c.Address =
        (if (PostProcessor.Configure env p raws).p.config.Address = ""
          then env.DefaultConfig.Address
          else (PostProcessor.Configure env p raws).p.config.Address) ∧
      c.Scheme =
        (if (PostProcessor.Configure env p raws).p.config.Scheme = ""
          then env.DefaultConfig.Scheme
          else (PostProcessor.Configure env p raws).p.config.Scheme) ∧
      c.Datacenter =
        (if (PostProcessor.Configure env p raws).p.config.Datacenter = ""
          then env.DefaultConfig.Datacenter
          else (PostProcessor.Configure env p raws).p.config.Datacenter) ∧
      c.Token =
        (if (PostProcessor.Configure env p raws).p.config.Token = ""
          then env.DefaultConfig.Token
          else (PostProcessor.Configure env p raws).p.config.Token) ∧
      c.HttpClient = env.DefaultConfig.HttpClient ∧
      c.HttpAuth = env.DefaultConfig.HttpAuth ∧
      c.WaitTime = env.DefaultConfig.WaitTime := by
  obtain ⟨config2, hget, heq⟩ := Configure_validated_eq env p raws config hd ht hp ha
  rw [heq]
  refine ⟨_, rfl, rfl, rfl, hget, ?_⟩
  simp only [Configure.clientConfig]
  by_cases h1 : config2.Address = "" <;> by_cases h2 : config2.Scheme = "" <;>
    by_cases h3 : config2.Datacenter = "" <;> by_cases h4 : config2.Token = "" <;>
    simp [h1, h2, h3, h4]

theorem Configure_client_settings_witness :
    (sampleEnv.Process addressedConfig.PackerUserVars addressedConfig.Address).1 ≠ "" ∧
      ∃ c : ApiConfig,
        (PostProcessor.Configure sampleEnv freshPostProcessor [addressedConfig]).built = [c] ∧
        c.Address = "consul.example:8500" ∧ c.Scheme = "http" ∧ c.Datacenter = "" ∧
        c.Token = "t0" := by
  obtain ⟨c, hb, -, -, -, h1, h2, h3, h4, -⟩ :=
    Configure_client_settings sampleEnv freshPostProcessor [addressedConfig] addressedConfig
      rfl rfl (fun k => rfl) (by decide)
  exact ⟨by decide, c, hb, h1, h2, h3, h4⟩

/-! ## Later lemmas on splitting and on the outcome of PostProcess -/

/-- A split has one piece more than the input has separators. -/
theorem splitChars_length (sep : Char) (l : List Char) :
    (splitChars sep l).length = l.count sep + 1 := by
  induction l with
  | nil => simp [splitChars]
  | cons c cs ih =>
    simp only [splitChars]
    split
    · rename_i hc
      subst hc
      simp [ih]
    · rename_i hc
      have hcount : (c :: cs).count sep = cs.count sep := by
        rw [List.count_cons_of_ne]
        exact fun e => hc e.symm
      rw [hcount, ← ih]
      cases hs : splitChars sep cs with
      | nil => exact absurd hs (splitChars_ne_nil _ _)
      | cons piece pieces => simp

/-- Splitting around one occurrence of the separator. -/
theorem splitChars_append_sep (sep : Char) (a b : List Char) :
    splitChars sep (a ++ sep :: b) = splitChars sep a ++ splitChars sep b := by
  induction a with
  | nil => simp [splitChars]
  | cons c cs ih =>
    have ih2 : splitChars sep (cs.append (sep :: b)) =
        splitChars sep cs ++ splitChars sep b := ih
    simp only [List.cons_append, splitChars]
    split
    · rw [ih2]; simp
    · rw [ih2]
      cases hs : splitChars sep cs with
      | nil => exact absurd hs (splitChars_ne_nil _ _)
      | cons piece pieces => simp

/-- An input without separator is its own single piece. -/
theorem splitChars_no_sep (sep : Char) (l : List Char) (h : sep ∉ l) :
    splitChars sep l = [l] := by
  induction l with
  | nil => simp [splitChars]
  | cons c cs ih =>
    rw [List.mem_cons, not_or] at h
    have hc : ¬ c = sep := fun e => h.1 e.symm
    simp [splitChars, hc, ih h.2]

theorem Split_length (s : String) (sep : Char) :
    (Split s sep).length = s.data.count sep + 1 := by
  simp [Split, splitChars_length]

/-- The empty unit is malformed. -/
theorem Split_empty_colon : (Split "" ':').length ≠ 2 := by decide

/-! ## Configure: the aggregated error -/

/-- What Configure does once the configuration is decoded and the template
engine made: every field is expanded, and the errors are the failed expansions
in the order of the visit, then the missing address. -/
theorem Configure_decoded_eq {Raw : Type} (env : Env Raw) (p : PostProcessor)
    (raws : List Raw) (config : Config)
    (hd : env.DecodeConfig p.config raws = (config, none))
    (ht : env.NewConfigTemplate = none) :
    ∃ config2 : Config,
      (∀ k, config2.get k = (env.Process config.PackerUserVars (config.get k)).1) ∧
      PostProcessor.Configure env p raws =
        if env.templatesOrder.filterMap (expansionFailure env config) ++
            missingAddress env config ≠ [] then
          { p := { p with config := config2 },
            err := some (Error.multi
              (env.templatesOrder.filterMap (expansionFailure env config) ++
                missingAddress env config)),
            built := [] }
        else
          { p := { config := config2,
                   client := (env.NewClient (Configure.clientConfig env.DefaultConfig config2)).1 },
            err := (env.NewClient (Configure.clientConfig env.DefaultConfig config2)).2,
            built := [Configure.clientConfig env.DefaultConfig config2] } := by
  have hget := templatesLoop_get env config.PackerUserVars env.templatesOrder
    (templatesOrder_nodup env) config []
  simp only [mem_templatesOrder, if_true] at hget
  have herrs := templatesLoop_errs env config.PackerUserVars env.templatesOrder
    (templatesOrder_nodup env) config []
  unfold PostProcessor.Configure
  rw [hd]
  simp only [ht]
  rcases hl : Configure.templatesLoop env config.PackerUserVars env.templatesOrder
    (config, []) with ⟨config2, errs2⟩
  rw [hl] at hget herrs
  simp only [List.nil_append] at hget herrs
  have herrs2 : errs2 = env.templatesOrder.filterMap (expansionFailure env config) := herrs
  have haddr : config2.Address = (env.Process config.PackerUserVars config.Address).1 :=
    hget TemplateKey.address
  have hreq : Configure.requiredLoop config2 Configure.required errs2 =
      env.templatesOrder.filterMap (expansionFailure env config) ++
        missingAddress env config := by
    rw [← herrs2]
    simp only [Configure.required, Configure.requiredLoop, Config.get, TemplateKey.name,
      missingAddress, haddr]
    split <;> simp
  refine ⟨config2, hget, ?_⟩
  simp only [hreq]
  by_cases hne : env.templatesOrder.filterMap (expansionFailure env config) ++
      missingAddress env config = []
  · rw [hne]
    simp only [List.length_nil, gt_iff_lt, lt_self_iff_false, if_false, ne_eq,
      not_true_eq_false]
    rcases hc : env.NewClient (Configure.clientConfig env.DefaultConfig config2) with
      ⟨client, _ | err⟩ <;> rfl
  · have hpos : (env.templatesOrder.filterMap (expansionFailure env config) ++
        missingAddress env config).length > 0 := List.length_pos.mpr hne
    rw [if_pos hpos, if_pos hne]

/-- C11: once the raw configuration is decoded (and the template engine made),
Configure expands all four fields, whether or not some expansion fails: every
field ends up holding what the expansion returned for it.  If some expansion
failed or the address is empty after expansion, Configure returns the
aggregated error and makes no client; otherwise it goes on to make the client
and returns what the client constructor returns.  The aggregated error holds
one entry for each field whose expansion failed (in the order the fields were
visited, a rearrangement of address, scheme, datacenter, token), followed by
the entry for the missing address when the address is empty. -/
theorem Configure_aggregated_error {Raw : Type} (env : Env Raw) (p : PostProcessor)
    (raws : List Raw) (config : Config)
    (hd : env.DecodeConfig p.config raws = (config, none))
    (ht : env.NewConfigTemplate = none) :
    (∀ k, (PostProcessor.Configure env p raws).p.config.get k =
      (env.Process config.PackerUserVars (config.get k)).1) ∧
    (((∃ k, (env.Process config.PackerUserVars (config.get k)).2 ≠ none) ∨
        (env.Process config.PackerUserVars config.Address).1 = "") →
      (PostProcessor.Configure env p raws).err =
        some (Error.multi (env.templatesOrder.filterMap (expansionFailure env config) ++
          missingAddress env config)) ∧
      (PostProcessor.Configure env p raws).built = []) ∧
    (¬ ((∃ k, (env.Process config.PackerUserVars (config.get k)).2 ≠ none) ∨
        (env.Process config.PackerUserVars config.Address).1 = "") →
      ∃ c : ApiConfig, (PostProcessor.Configure env p raws).built = [c] ∧
        (PostProcessor.Configure env p raws).err = (env.NewClient c).2 ∧
        (PostProcessor.Configure env p raws).p.client = (env.NewClient c).1) ∧
    (env.templatesOrder.filterMap (expansionFailure env config)).Perm
      ([TemplateKey.address, TemplateKey.scheme, TemplateKey.datacenter,
        TemplateKey.token].filterMap (expansionFailure env config)) := by
  obtain ⟨config2, hget, heq⟩ := Configure_decoded_eq env p raws config hd ht
  have hiff : env.templatesOrder.filterMap (expansionFailure env config) ++
        missingAddress env config ≠ [] ↔
      ((∃ k, (env.Process config.PackerUserVars (config.get k)).2 ≠ none) ∨
        (env.Process config.PackerUserVars config.Address).1 = "") := by
    rw [ne_eq, List.append_eq_nil, List.filterMap_eq_nil_iff, not_and_or]
    constructor
    · rintro (h | h)
      · left
        push_neg at h
        obtain ⟨k, -, hk⟩ := h
        refine ⟨k, ?_⟩
        intro hnone
        apply hk
        simp [expansionFailure, hnone]
      · right
        by_contra hna
        apply h
        simp [missingAddress, hna]
    · rintro (⟨k, hk⟩ | h)
      · left
        push_neg
        refine ⟨k, mem_templatesOrder env k, ?_⟩
        cases he : (env.Process config.PackerUserVars (config.get k)).2 with
        | none => exact absurd he hk
        | some e => simp [expansionFailure, he]
      · right
        simp [missingAddress, h]
  refine ⟨?_, ?_, ?_, env.templatesOrder_perm.filterMap _⟩
  · intro k
    rw [heq]
    split <;> exact hget k
  · intro hc
    rw [heq, if_pos (hiff.mpr hc)]
    exact ⟨rfl, rfl⟩
  · intro hc
    rw [heq, if_neg (fun h => hc (hiff.mp h))]
    exact ⟨_, rfl, rfl, rfl⟩

theorem Configure_aggregated_error_witness :
    ((∃ k, (failingEnv.Process brokenConfig.PackerUserVars (brokenConfig.get k)).2 ≠ none) ∨
        (failingEnv.Process brokenConfig.PackerUserVars brokenConfig.Address).1 = "") ∧
      (PostProcessor.Configure failingEnv freshPostProcessor [brokenConfig]).err =
        some (Error.multi ["Error processing token: template error",
          "Error processing scheme: template error", "address must be set"]) ∧
      (PostProcessor.Configure failingEnv freshPostProcessor [brokenConfig]).built = [] ∧
      (PostProcessor.Configure failingEnv freshPostProcessor [brokenConfig]).p.config.get
          TemplateKey.datacenter = "dc1" :=
  have h := Configure_aggregated_error failingEnv freshPostProcessor [brokenConfig]
    brokenConfig rfl rfl
  ⟨Or.inr rfl, (h.2.1 (Or.inr rfl)).1, (h.2.1 (Or.inr rfl)).2, h.1 TemplateKey.datacenter⟩

/-! ## metadata: one source missing -/

/-- C12: when the artifact holds nothing under the metadata key, metadata()
does not panic and returns the configured metadata as it is: the result has
exactly the configured key/value pairs, and none at all when no metadata is
configured. -/
theorem metadata_without_embedded (p : PostProcessor) (artifact : Artifact)
    (h : artifact.State ArtifactStateMetadata = none) :
    p.metadata artifact = .ok p.config.Metadata ∧
      (∃ M, p.metadata artifact = .ok M ∧
        (∀ k, mapGet M k = mapGet p.config.Metadata k) ∧
        (p.config.Metadata = none → ∀ k, mapGet M k = none)) := by
  have heq : p.metadata artifact = .ok p.config.Metadata := by
    cases hc : p.config.Metadata <;> simp [PostProcessor.metadata, h, hc]
  refine ⟨heq, p.config.Metadata, heq, fun _ => rfl, ?_⟩
  intro hn k
  rw [hn]
  rfl

theorem metadata_without_embedded_witness :
    e2eArtifact.State ArtifactStateMetadata = none ∧
      e2ePostProcessor.metadata e2eArtifact = .ok (some (AList.singleton "build" "42")) :=
  ⟨rfl, (metadata_without_embedded e2ePostProcessor e2eArtifact rfl).1⟩

/-- C13: when the artifact holds a mapping E under the metadata key and the
configuration has no metadata, metadata() returns E: a mapping with exactly the
key/value pairs of E. -/
theorem metadata_without_configured (p : PostProcessor) (artifact : Artifact)
    (E : StringMap)
    (hE : artifact.State ArtifactStateMetadata = some (Value.stringMap E))
    (hC : p.config.Metadata = none) :
    p.metadata artifact = .ok (some E) ∧
      (∃ M, p.metadata artifact = .ok M ∧ ∀ k, mapGet M k = E.lookup k) := by
  have heq : p.metadata artifact = .ok (some E) := by
    simp [PostProcessor.metadata, hE, hC, Decode]
  exact ⟨heq, some E, heq, fun _ => rfl⟩

theorem metadata_without_configured_witness :
    mergeArtifact.State ArtifactStateMetadata = some (Value.stringMap mergeEmbedded) ∧
      freshPostProcessor.config.Metadata = none ∧
      freshPostProcessor.metadata mergeArtifact = .ok (some mergeEmbedded) :=
  ⟨rfl, rfl, (metadata_without_configured freshPostProcessor mergeArtifact mergeEmbedded
    rfl rfl).1⟩

/-! ## PostProcess: messages and outcome -/

theorem unitMessages_length (pairs : List (String × String)) :
    (unitMessages pairs).length = 2 * pairs.length := by
  induction pairs with
  | nil => rfl
  | cons pr ps ih =>
    simp only [unitMessages, List.flatMap_cons, List.length_append, List.length_cons,
      List.length_nil] at ih ⊢
    omega

theorem supported_of_lookup (b kind : String) (h : builtins.lookup b = some kind) :
    b = "mitchellh.amazonebs" ∨ b = "mitchellh.amazon.instance" := by
  by_contra hn
  rw [not_or] at hn
  rw [(lookup_builtins_none b).mpr hn] at h
  cases h

/-- What PostProcess does with a supported artifact whose identifier has a
malformed unit, the first one after the units `before`. -/
theorem PostProcess_malformed_eq (p : PostProcessor) (ui : Ui) (store : Store)
    (artifact : Artifact)
    (hs : artifact.BuilderId = "mitchellh.amazonebs" ∨
      artifact.BuilderId = "mitchellh.amazon.instance")
    (before : List String) (bad : String) (after : List String)
    (he : Split artifact.Id ',' = before ++ bad :: after)
    (hbefore : ∀ u ∈ before, (Split u ':').length = 2)
    (hbad : (Split bad ':').length ≠ 2) :
    p.PostProcess ui store artifact =
      { artifact := none, keep := false,
        err := some (Error.msg ("Poorly formatted artifact ID: " ++ artifact.Id)),
        ui := { messages := ui.messages ++ unitMessages (before.map unitPair) },
        store := store } := by
  obtain ⟨kind, hk⟩ := lookup_builtins_some _ hs
  have hl := loop_stops artifact before bad after ui hbefore hbad
  rw [← he] at hl
  simp [PostProcessor.PostProcess, hk, hl]

/-- The outcome of PostProcess is fixed by the BuilderId and the identifier:
the error (none, unsupported type or malformed identifier), the messages it
adds to the sink, no change of the store, and the given artifact returned
exactly when there is no error. -/
theorem PostProcess_outcome (b i : String) :
    ∃ (err : Option Error) (msgs : List String),
      (err = none ∨ err = some (Error.msg ("Unsupported artifact type: " ++ b)) ∨
        err = some (Error.msg ("Poorly formatted artifact ID: " ++ i))) ∧
      ∀ (p : PostProcessor) (ui : Ui) (store : Store) (a : Artifact),
        a.BuilderId = b → a.Id = i →
        p.PostProcess ui store a =
          { artifact := if err.isNone then some a else none, keep := false, err := err,
            ui := { messages := ui.messages ++ msgs }, store := store } := by
  cases hl : builtins.lookup b with
  | none =>
    refine ⟨some (Error.msg ("Unsupported artifact type: " ++ b)), [], Or.inr (Or.inl rfl), ?_⟩
    intro p ui store a hb hi
    subst hb
    simp [PostProcessor.PostProcess, hl]
  | some kind =>
    have hs := supported_of_lookup b kind hl
    by_cases hwf : ∀ u ∈ Split i ',', (Split u ':').length = 2
    · refine ⟨none, unitMessages ((Split i ',').map unitPair) ++ ["AMI IDs: " ++ i],
        Or.inl rfl, ?_⟩
      intro p ui store a hb hi
      subst hb hi
      rw [PostProcess_wellFormed_eq p ui store a hs hwf]
      simp
    · push_neg at hwf
      obtain ⟨before, bad, after, he, hbefore, hbad⟩ := first_malformed _ hwf
      refine ⟨some (Error.msg ("Poorly formatted artifact ID: " ++ i)),
        unitMessages (before.map unitPair), Or.inr (Or.inr rfl), ?_⟩
      intro p ui store a hb hi
      subst hb hi
      rw [PostProcess_malformed_eq p ui store a hs before bad after he hbefore hbad]
      simp

/-- C16: for a supported artifact whose identifier is well formed, with n
units, PostProcess adds to the sink exactly 2n+1 messages: for each unit in
input order "AMI ID part 0: " with its region then "AMI ID part 1: " with its
value (region and value being the two parts of the unit around its ":"), and
at the end "AMI IDs: " with the identifier. -/
theorem PostProcess_messages (p : PostProcessor) (ui : Ui) (store : Store)
    (artifact : Artifact)
    (hs : artifact.BuilderId = "mitchellh.amazonebs" ∨
      artifact.BuilderId = "mitchellh.amazon.instance")
    (hwf : ∀ u ∈ Split artifact.Id ',', (Split u ':').length = 2) :
    (p.PostProcess ui store artifact).ui.messages =
        ui.messages ++
          ((Split artifact.Id ',').flatMap
              (fun u => ["AMI ID part 0: " ++ (unitPair u).1,
                "AMI ID part 1: " ++ (unitPair u).2]) ++
            ["AMI IDs: " ++ artifact.Id]) ∧
      ((Split artifact.Id ',').flatMap
            (fun u => ["AMI ID part 0: " ++ (unitPair u).1,
              "AMI ID part 1: " ++ (unitPair u).2]) ++
          ["AMI IDs: " ++ artifact.Id]).length = 2 * (Split artifact.Id ',').length + 1 ∧
      (∀ u ∈ Split artifact.Id ',', (unitPair u).1 ++ ":" ++ (unitPair u).2 = u) := by
  have hflat : (Split artifact.Id ',').flatMap
      (fun u => ["AMI ID part 0: " ++ (unitPair u).1, "AMI ID part 1: " ++ (unitPair u).2]) =
      unitMessages ((Split artifact.Id ',').map unitPair) := by
    simp [unitMessages, List.flatMap_map]
  rw [hflat, PostProcess_wellFormed_eq p ui store artifact hs hwf]
  refine ⟨by simp, ?_, fun u hu => unitPair_join u (hwf u hu)⟩
  rw [List.length_append, unitMessages_length, List.length_map]
  rfl

theorem PostProcess_messages_witness :
    (∀ u ∈ Split (plainArtifact "mitchellh.amazonebs" "us-east-1:ami-1,eu-west-1:ami-2").Id ',',
        (Split u ':').length = 2) ∧
      (e2ePostProcessor.PostProcess { messages := ["start"] } []
          (plainArtifact "mitchellh.amazonebs" "us-east-1:ami-1,eu-west-1:ami-2")).ui.messages =
        ["start"] ++
          (["AMI ID part 0: us-east-1", "AMI ID part 1: ami-1",
            "AMI ID part 0: eu-west-1", "AMI ID part 1: ami-2"] ++
          ["AMI IDs: us-east-1:ami-1,eu-west-1:ami-2"]) :=
  ⟨by decide,
    (PostProcess_messages e2ePostProcessor { messages := ["start"] } []
      (plainArtifact "mitchellh.amazonebs" "us-east-1:ami-1,eu-west-1:ami-2")
      (Or.inl rfl) (by decide)).1⟩

/-- C17: for a supported artifact whose identifier has its first malformed
unit at position k (after k well-formed units), PostProcess returns the
malformed-identifier error having added to the sink exactly the 2k messages of
the k units before the malformed one, in order: no message for the malformed
unit or a later one, and no final "AMI IDs: " message. -/
theorem PostProcess_malformed_messages (p : PostProcessor) (ui : Ui) (store : Store)
    (artifact : Artifact)
    (hs : artifact.BuilderId = "mitchellh.amazonebs" ∨
      artifact.BuilderId = "mitchellh.amazon.instance")
    (before : List String) (bad : String) (after : List String)
    (he : Split artifact.Id ',' = before ++ bad :: after)
    (hbefore : ∀ u ∈ before, (Split u ':').length = 2)
    (hbad : (Split bad ':').length ≠ 2) :
    (p.PostProcess ui store artifact).err =
        some (Error.msg ("Poorly formatted artifact ID: " ++ artifact.Id)) ∧
      (p.PostProcess ui store artifact).ui.messages =
        ui.messages ++ before.flatMap
          (fun u => ["AMI ID part 0: " ++ (unitPair u).1,
            "AMI ID part 1: " ++ (unitPair u).2]) ∧
      (before.flatMap
          (fun u => ["AMI ID part 0: " ++ (unitPair u).1,
            "AMI ID part 1: " ++ (unitPair u).2])).length = 2 * before.length := by
  have hflat : before.flatMap
      (fun u => ["AMI ID part 0: " ++ (unitPair u).1, "AMI ID part 1: " ++ (unitPair u).2]) =
      unitMessages (before.map unitPair) := by
    simp [unitMessages, List.flatMap_map]
  rw [hflat, PostProcess_malformed_eq p ui store artifact hs before bad after he hbefore hbad]
  refine ⟨rfl, rfl, ?_⟩
  rw [unitMessages_length, List.length_map]

theorem PostProcess_malformed_messages_witness :
    Split (plainArtifact "mitchellh.amazonebs" "a:b,c,d:e").Id ',' = ["a:b"] ++ "c" :: ["d:e"] ∧
      (e2ePostProcessor.PostProcess { messages := [] } []
          (plainArtifact "mitchellh.amazonebs" "a:b,c,d:e")).err =
        some (Error.msg "Poorly formatted artifact ID: a:b,c,d:e") ∧
      (e2ePostProcessor.PostProcess { messages := [] } []
          (plainArtifact "mitchellh.amazonebs" "a:b,c,d:e")).ui.messages =
        [] ++ ["AMI ID part 0: a", "AMI ID part 1: b"] :=
  have h := PostProcess_malformed_messages e2ePostProcessor { messages := [] } []
    (plainArtifact "mitchellh.amazonebs" "a:b,c,d:e") (Or.inl rfl)
    ["a:b"] "c" ["d:e"] (by decide) (by decide) (by decide)
  ⟨by decide, h.1, h.2.1⟩

/-- C18: two runs of PostProcess on artifacts that agree on BuilderId and
identifier, whatever the two configurations and whatever state the artifacts
hold, end with the same error (or none), the same flag, the same sink and the
same store, and both or neither return an artifact; the error is none, the
unsupported-type error or the malformed-identifier error, never one from the
store. -/
theorem PostProcess_depends_on_id (p1 p2 : PostProcessor) (a1 a2 : Artifact)
    (ui : Ui) (store : Store)
    (hb : a1.BuilderId = a2.BuilderId) (hi : a1.Id = a2.Id) :
    (p1.PostProcess ui store a1).err = (p2.PostProcess ui store a2).err ∧
      (p1.PostProcess ui store a1).keep = (p2.PostProcess ui store a2).keep ∧
      (p1.PostProcess ui store a1).ui = (p2.PostProcess ui store a2).ui ∧
      (p1.PostProcess ui store a1).store = (p2.PostProcess ui store a2).store ∧
      (p1.PostProcess ui store a1).artifact.isSome =
        (p2.PostProcess ui store a2).artifact.isSome ∧
      ((p1.PostProcess ui store a1).err = none ∨
        (p1.PostProcess ui store a1).err =
          some (Error.msg ("Unsupported artifact type: " ++ a1.BuilderId)) ∨
        (p1.PostProcess ui store a1).err =
          some (Error.msg ("Poorly formatted artifact ID: " ++ a1.Id))) := by
  obtain ⟨err, msgs, herr, h⟩ := PostProcess_outcome a1.BuilderId a1.Id
  rw [h p1 ui store a1 rfl rfl, h p2 ui store a2 hb.symm hi.symm]
  refine ⟨rfl, rfl, rfl, rfl, ?_, herr⟩
  cases err <;> rfl

theorem PostProcess_depends_on_id_witness :
    mergeArtifact.BuilderId = e2eArtifact.BuilderId ∧ mergeArtifact.Id = e2eArtifact.Id ∧
      (mergePostProcessor.PostProcess { messages := [] } [] mergeArtifact).err =
        ((typePostProcessor "iso" true).PostProcess { messages := [] } [] e2eArtifact).err ∧
      (mergePostProcessor.PostProcess { messages := [] } [] mergeArtifact).ui =
        ((typePostProcessor "iso" true).PostProcess { messages := [] } [] e2eArtifact).ui :=
  have h := PostProcess_depends_on_id mergePostProcessor (typePostProcessor "iso" true)
    mergeArtifact e2eArtifact { messages := [] } [] rfl rfl
  ⟨rfl, rfl, h.1, h.2.2.1⟩

/-! ## PostProcess: which identifiers are accepted -/

/-- A supported artifact with a malformed unit is rejected. -/
theorem PostProcess_rejects (p : PostProcessor) (ui : Ui) (store : Store)
    (artifact : Artifact)
    (hs : artifact.BuilderId = "mitchellh.amazonebs" ∨
      artifact.BuilderId = "mitchellh.amazon.instance")
    (hbad : ∃ u ∈ Split artifact.Id ',', (Split u ':').length ≠ 2) :
    (p.PostProcess ui store artifact).err =
      some (Error.msg ("Poorly formatted artifact ID: " ++ artifact.Id)) := by
  obtain ⟨before, bad, after, he, hbefore, hbad2⟩ := first_malformed _ hbad
  rw [PostProcess_malformed_eq p ui store artifact hs before bad after he hbefore hbad2]

theorem empty_unit_leading (rest : String) : "" ∈ Split ("," ++ rest) ',' := by
  simp [Split, splitChars]

theorem empty_unit_trailing (rest : String) : "" ∈ Split (rest ++ ",") ',' := by
  have h : (rest ++ ",").data = rest.data ++ ',' :: [] := by simp
  simp only [Split, h, splitChars_append_sep, splitChars, List.map_append, List.mem_append,
    List.map_cons, List.map_nil, List.mem_singleton]
  exact Or.inr trivial

theorem empty_unit_doubled (a b : String) : "" ∈ Split (a ++ ",," ++ b) ',' := by
  have h : (a ++ ",," ++ b).data = a.data ++ ',' :: (',' :: b.data) := by simp
  simp only [Split, h, splitChars_append_sep, List.map_append, List.mem_append]
  right
  simp [splitChars]

/-- C15: for a supported artifact, PostProcess returns no error exactly when
every unit of the identifier (split on ",") splits on ":" into two parts, that
is, has exactly one ":".  So an identifier without "," that has one ":" is
accepted, as a single unit; the empty identifier, an identifier that starts or
ends with "," or has ",,", and an identifier with a unit of two or more ":" are
rejected with the malformed-identifier error. -/
theorem PostProcess_accepts_iff (p : PostProcessor) (ui : Ui) (store : Store)
    (artifact : Artifact)
    (hs : artifact.BuilderId = "mitchellh.amazonebs" ∨
      artifact.BuilderId = "mitchellh.amazon.instance") :
    ((p.PostProcess ui store artifact).err = none ↔
        ∀ u ∈ Split artifact.Id ',', (Split u ':').length = 2) ∧
      (∀ u : String, (Split u ':').length = 2 ↔ u.data.count ':' = 1) ∧
      (',' ∉ artifact.Id.data → artifact.Id.data.count ':' = 1 →
        (p.PostProcess ui store artifact).err = none ∧
          Split artifact.Id ',' = [artifact.Id]) ∧
      (artifact.Id = "" →
        (p.PostProcess ui store artifact).err =
          some (Error.msg ("Poorly formatted artifact ID: " ++ artifact.Id))) ∧
      ((∃ rest, artifact.Id = "," ++ rest) →
        (p.PostProcess ui store artifact).err =
          some (Error.msg ("Poorly formatted artifact ID: " ++ artifact.Id))) ∧
      ((∃ rest, artifact.Id = rest ++ ",") →
        (p.PostProcess ui store artifact).err =
          some (Error.msg ("Poorly formatted artifact ID: " ++ artifact.Id))) ∧
      ((∃ a b, artifact.Id = a ++ ",," ++ b) →
        (p.PostProcess ui store artifact).err =
          some (Error.msg ("Poorly formatted artifact ID: " ++ artifact.Id))) ∧
      ((∃ u ∈ Split artifact.Id ',', 2 ≤ u.data.count ':') →
        (p.PostProcess ui store artifact).err =
          some (Error.msg ("Poorly formatted artifact ID: " ++ artifact.Id))) := by
  have hcount : ∀ u : String, (Split u ':').length = 2 ↔ u.data.count ':' = 1 := by
    intro u
    rw [Split_length]
    omega
  have hempty : "" ∈ Split artifact.Id ',' →
      (p.PostProcess ui store artifact).err =
        some (Error.msg ("Poorly formatted artifact ID: " ++ artifact.Id)) :=
    fun h => PostProcess_rejects p ui store artifact hs ⟨"", h, Split_empty_colon⟩
  refine ⟨?_, hcount, ?_, ?_, ?_, ?_, ?_, ?_⟩
  · constructor
    · intro hnone
      by_contra hwf
      push_neg at hwf
      rw [PostProcess_rejects p ui store artifact hs hwf] at hnone
      cases hnone
    · intro hwf
      rw [PostProcess_wellFormed_eq p ui store artifact hs hwf]
  · intro hcomma hcolon
    have hsplit : Split artifact.Id ',' = [artifact.Id] := by
      simp [Split, splitChars_no_sep _ _ hcomma]
    refine ⟨?_, hsplit⟩
    have hwf : ∀ u ∈ Split artifact.Id ',', (Split u ':').length = 2 := by
      intro u hu
      rw [hsplit, List.mem_singleton] at hu
      rw [hu]
      exact (hcount _).mpr hcolon
    rw [PostProcess_wellFormed_eq p ui store artifact hs hwf]
  · intro h
    apply hempty
    rw [h]
    decide
  · rintro ⟨rest, h⟩
    apply hempty
    rw [h]
    exact empty_unit_leading rest
  · rintro ⟨rest, h⟩
    apply hempty
    rw [h]
    exact empty_unit_trailing rest
  · rintro ⟨a, b, h⟩
    apply hempty
    rw [h]
    exact empty_unit_doubled a b
  · rintro ⟨u, hu, h2⟩
    apply PostProcess_rejects p ui store artifact hs
    refine ⟨u, hu, ?_⟩
    rw [Split_length]
    omega

theorem PostProcess_accepts_iff_witness :
    ((e2ePostProcessor.PostProcess { messages := [] } []
          (plainArtifact "mitchellh.amazonebs" "r:v")).err = none ∧
        Split (plainArtifact "mitchellh.amazonebs" "r:v").Id ',' = ["r:v"]) ∧
      (e2ePostProcessor.PostProcess { messages := [] } []
          (plainArtifact "mitchellh.amazonebs" "")).err =
        some (Error.msg "Poorly formatted artifact ID: ") ∧
      (e2ePostProcessor.PostProcess { messages := [] } []
          (plainArtifact "mitchellh.amazonebs" ",r:v")).err =
        some (Error.msg "Poorly formatted artifact ID: ,r:v") ∧
      (e2ePostProcessor.PostProcess { messages := [] } []
          (plainArtifact "mitchellh.amazonebs" "r:v,")).err =
        some (Error.msg "Poorly formatted artifact ID: r:v,") ∧
      (e2ePostProcessor.PostProcess { messages := [] } []
          (plainArtifact "mitchellh.amazonebs" "a:b,,c:d")).err =
        some (Error.msg "Poorly formatted artifact ID: a:b,,c:d") ∧
      (e2ePostProcessor.PostProcess { messages := [] } []
          (plainArtifact "mitchellh.amazonebs" "a:b:c")).err =
        some (Error.msg "Poorly formatted artifact ID: a:b:c") :=
  ⟨(PostProcess_accepts_iff e2ePostProcessor { messages := [] } []
      (plainArtifact "mitchellh.amazonebs" "r:v") (Or.inl rfl)).2.2.1 (by decide) (by decide),
    (PostProcess_accepts_iff e2ePostProcessor { messages := [] } []
      (plainArtifact "mitchellh.amazonebs" "") (Or.inl rfl)).2.2.2.1 rfl,
    (PostProcess_accepts_iff e2ePostProcessor { messages := [] } []
      (plainArtifact "mitchellh.amazonebs" ",r:v") (Or.inl rfl)).2.2.2.2.1 ⟨"r:v", rfl⟩,
    (PostProcess_accepts_iff e2ePostProcessor { messages := [] } []
      (plainArtifact "mitchellh.amazonebs" "r:v,") (Or.inl rfl)).2.2.2.2.2.1 ⟨"r:v", rfl⟩,
    (PostProcess_accepts_iff e2ePostProcessor { messages := [] } []
      (plainArtifact "mitchellh.amazonebs" "a:b,,c:d") (Or.inl rfl)).2.2.2.2.2.2.1
        ⟨"a:b", "c:d", rfl⟩,
    (PostProcess_accepts_iff e2ePostProcessor { messages := [] } []
      (plainArtifact "mitchellh.amazonebs" "a:b:c") (Or.inl rfl)).2.2.2.2.2.2.2
        ⟨"a:b:c", by decide, by decide⟩⟩

end consul
